import Mathlib

/-!
Shallow embedding of `src/server.js` (express-and-mongoose).

The server keeps two process-wide caches, `connections` (database name →
connection handle) and `models` (composite key `dbName ++ "-" ++ collectionName`
→ schema-bound model), populated lazily by `getConnection` / `getModel`, and
four CRUD route handlers built on them.

Modelling choices:
- JS objects holding the caches become association lists; a JS assignment
  `cache[k] = v` becomes a front-cons, which gives the same overwrite
  semantics for lookups.
- `mongoose.createConnection` is asynchronous and can fail; we model the
  outcome with an oracle `connectOk : String → Bool` per call, and each
  successful open allocates a fresh numeric handle id and appends the database
  name to an `opened` trace (the observable side effect of opening).
- Documents are association lists of JSON-ish primitives; numbers are `Rat`.
- Mongoose validation of `grocerySchema` is modelled field by field:
  required fields must be present and non-null, typed fields must carry the
  matching primitive, `food_group` must be in its enum, `quantity` must be
  ≥ 0.  Fields outside the schema are ignored (mongoose default strict mode
  strips them).  Cross-type casting (e.g. number-to-string) is modelled
  strictly; no claim exercises that boundary.
- MongoDB `_id`s become `Nat`s, generated from a counter; the `:id` path
  parameter is a string, and the `ObjectId` cast performed by
  `findByIdAndDelete` / `findByIdAndUpdate` is modelled by `String.toNat?`,
  a malformed id raising a cast error exactly as a malformed `ObjectId` does.
- Error messages are fixed model strings standing in for the driver's texts.
-/

namespace ExpressMongoose

/-- Results of fallible calls are compared concretely in witnesses, so give
`Except` decidable equality. -/
instance {ε α : Type} [DecidableEq ε] [DecidableEq α] :
    DecidableEq (Except ε α) := fun x y =>
  match x, y with
  | .ok a, .ok b =>
    if h : a = b then .isTrue (by rw [h]) else .isFalse (by simp [h])
  | .error a, .error b =>
    if h : a = b then .isTrue (by rw [h]) else .isFalse (by simp [h])
  | .ok _, .error _ => .isFalse (by simp)
  | .error _, .ok _ => .isFalse (by simp)

/-- JSON-ish primitive values appearing in request documents. -/
inductive Prim where
  | pStr : String → Prim
  | pNum : Rat → Prim
  | pBool : Bool → Prim
  | pNull : Prim
deriving DecidableEq, Repr

/-- A JS object used as a document: field name to primitive value. -/
abbrev Doc := List (String × Prim)

/-- A JSON value as it can appear in `req.body.document` / `req.body.documents`. -/
inductive JVal where
  | prim : Prim → JVal
  | obj : Doc → JVal
  | arr : List Doc → JVal
deriving DecidableEq, Repr

/-- JS truthiness for primitives (`""`, `0`, `false`, `null` are falsy). -/
def primTruthy : Prim → Bool
  | .pStr s => decide (s ≠ ("" : String))
  | .pNum n => decide (n ≠ 0)
  | .pBool b => b
  | .pNull => false

/-- JS truthiness for JSON values: objects and arrays are always truthy. -/
def truthy : JVal → Bool
  | .prim p => primTruthy p
  | .obj _ => true
  | .arr _ => true

/-- Truthiness of an optional body field (`undefined` is falsy). -/
def optTruthy : Option JVal → Bool
  | none => false
  | some v => truthy v

/-- The JS test `req.body.documents && Array.isArray(req.body.documents)`. -/
def optIsArray : Option JVal → Bool
  | some (.arr _) => true
  | _ => false

/-- A live connection handle: the value stored in `connections[dbName]`.
`connId` is the identity of the underlying opened connection. -/
structure ConnHandle where
  connId : Nat
  dbName : String
deriving DecidableEq, Repr

/-- A schema-bound model: the value stored in `models[modelKey]`, produced by
`connection.model(collectionName, grocerySchema, collectionName)`.  It is bound
to the connection it was created on (`connId`, `dbName`). -/
structure MModel where
  modelId : Nat
  connId : Nat
  dbName : String
  collName : String
deriving DecidableEq, Repr

/-- A stored document: generated id plus its fields. -/
structure SDoc where
  docId : Nat
  fields : Doc
deriving DecidableEq, Repr

/-- Association-list lookup, first match wins (JS property lookup). -/
def alookup {α β : Type} [DecidableEq α] (k : α) : List (α × β) → Option β
  | [] => none
  | (k₁, v) :: rest => if k = k₁ then some v else alookup k rest

/-- Association-list write `cache[k] = v`: front-cons shadows any older entry. -/
def aset {α β : Type} [DecidableEq α] (k : α) (v : β) (l : List (α × β)) :
    List (α × β) :=
  (k, v) :: l

/-- The whole mutable state of the server process: the two registries, the
stored collections (keyed by connection id and collection name), the fresh-id
counter, and the trace of databases for which a connection was opened. -/
structure St where
  connections : List (String × ConnHandle)
  models : List (String × MModel)
  store : List ((Nat × String) × List SDoc)
  nextId : Nat
  opened : List String
deriving DecidableEq, Repr

/-- The state at process start: both registries empty, nothing stored. -/
def stEmpty : St := ⟨[], [], [], 0, []⟩

/-- Errors thrown inside a handler's `try` block. -/
inductive Err where
  | connFail : String → Err
  | validation : String → Err
  | castFail : String → Err
deriving DecidableEq, Repr

/-- The `err.message` a handler serializes into its 500 response.  The texts
model the driver's messages. -/
def Err.message : Err → String
  | .connFail d => ("failed to connect to database " : String) ++ d
  | .validation m => m
  | .castFail v => ("Cast to ObjectId failed for value " : String) ++ v

/-- The cache check `connections[dbName]` at the top of `getConnection`. -/
def connCheck (dbName : String) (s : St) : Option ConnHandle :=
  alookup dbName s.connections

/-- The tail of `getConnection` after a cache miss: `await
mongoose.createConnection(DB)` followed by the assignment
`connections[dbName] = ...`.  On failure the promise rejects before the
assignment, so the state is untouched. -/
def connCreate (connectOk : String → Bool) (dbName : String) (s : St) :
    Except Err ConnHandle × St :=
  if connectOk dbName then
    (.ok ⟨s.nextId, dbName⟩,
      { s with
        connections := aset dbName ⟨s.nextId, dbName⟩ s.connections
        nextId := s.nextId + 1
        opened := s.opened ++ [dbName] })
  else
    (.error (.connFail dbName), s)

/-- `getConnection` from `src/server.js`: return the cached handle if present,
otherwise open a connection and cache it. -/
def getConnection (connectOk : String → Bool) (dbName : String) (s : St) :
    Except Err ConnHandle × St :=
  match connCheck dbName s with
  | some h => (.ok h, s)
  | none => connCreate connectOk dbName s

/-- The composite cache key from `getModel`: the template literal
`dbName-collectionName`. -/
def modelKey (dbName collectionName : String) : String :=
  dbName ++ ("-" : String) ++ collectionName

/-- `getModel` from `src/server.js`: return the cached model under the
composite key if present, otherwise acquire the connection, bind the grocery
schema to the collection on it, cache and return the new model. -/
def getModel (connectOk : String → Bool) (dbName collectionName : String)
    (s : St) : Except Err MModel × St :=
  match alookup (modelKey dbName collectionName) s.models with
  | some m => (.ok m, s)
  | none =>
    match getConnection connectOk dbName s with
    | (.ok conn, s₁) =>
      (.ok ⟨s₁.nextId, conn.connId, conn.dbName, collectionName⟩,
        { s₁ with
          models := aset (modelKey dbName collectionName)
            ⟨s₁.nextId, conn.connId, conn.dbName, collectionName⟩ s₁.models
          nextId := s₁.nextId + 1 })
    | (.error e, s₁) => (.error e, s₁)

/-- The enum of `food_group` in `grocerySchema`. -/
def foodGroups : List String :=
  ["fruits", "vegetables", "proteins", "dairy", "grains", "nuts"]

/-- The paths declared by `grocerySchema`. -/
def schemaFields : List String :=
  ["item", "food_group", "price_in_usd", "quantity", "calories_per_100g",
   "organic", "wild_caught", "fat_content", "gluten_free", "free_range"]

/-- The paths `grocerySchema` marks `required`. -/
def requiredFields : List String :=
  ["item", "food_group", "price_in_usd", "quantity"]

/-- Whether a value present on a schema path satisfies that path's
type/enum/min constraints.  `null` passes on any non-required path; a path
outside the schema is ignored (strict mode). -/
def fieldOk : String → Prim → Bool
  | f, .pNull => !(requiredFields.contains f)
  | "item", .pStr _ => true
  | "food_group", .pStr g => foodGroups.contains g
  | "price_in_usd", .pNum _ => true
  | "quantity", .pNum q => decide ((0 : Rat) ≤ q)
  | "calories_per_100g", .pNum _ => true
  | "organic", .pBool _ => true
  | "wild_caught", .pBool _ => true
  | "fat_content", .pStr _ => true
  | "gluten_free", .pBool _ => true
  | "free_range", .pBool _ => true
  | f, _ => !(schemaFields.contains f)

/-- Whether a required field is present with a non-null value. -/
def presentNonNull (f : String) (d : Doc) : Bool :=
  match alookup f d with
  | some .pNull => false
  | some _ => true
  | none => false

/-- Full-document validation run by `Model.create` / `insertMany` against
`grocerySchema`: every required path present and non-null, every present
value satisfying its path's constraints. -/
def validateDoc (d : Doc) : Bool :=
  requiredFields.all (fun f => presentNonNull f d) &&
    d.all (fun fv => fieldOk fv.1 fv.2)

/-- The fields actually stored for a created document: non-schema paths are
stripped (strict mode) and `item` is trimmed (`trim: true`). -/
def storedFields (d : Doc) : Doc :=
  (d.filter (fun fv => schemaFields.contains fv.1)).map
    (fun fv =>
      match fv with
      | ("item", .pStr s) => (("item" : String), .pStr s.trim)
      | other => other)

/-- The storage location a model reads and writes: its connection's database
and its bound collection. -/
def storeKey (m : MModel) : Nat × String := (m.connId, m.collName)

/-- The current contents of the collection a model is bound to. -/
def getColl (m : MModel) (s : St) : List SDoc :=
  (alookup (storeKey m) s.store).getD []

/-- Replace the contents of the collection a model is bound to. -/
def setColl (m : MModel) (docs : List SDoc) (s : St) : St :=
  { s with store := aset (storeKey m) docs s.store }

/-- `Model.create(req.body.document)`: validate against the schema, then store
with a freshly generated id.  Validation failure rejects before anything
reaches storage; a non-object argument also rejects. -/
def modelCreate (m : MModel) (v : JVal) (s : St) : Except Err Nat × St :=
  match v with
  | .obj fields =>
    if validateDoc fields then
      (.ok s.nextId,
        setColl m (getColl m s ++ [⟨s.nextId, storedFields fields⟩])
          { s with nextId := s.nextId + 1 })
    else
      (.error (.validation ("grocery validation failed" : String)), s)
  | _ => (.error (.validation ("document must be an object" : String)), s)

/-- `Model.insertMany(req.body.documents)`: every document is validated before
any is inserted; one failure rejects the whole batch. -/
def modelInsertMany (m : MModel) (ds : List Doc) (s : St) :
    Except Err (List Nat) × St :=
  if ds.all validateDoc then
    (.ok ((List.range ds.length).map (fun i => s.nextId + i)),
      setColl m
        (getColl m s ++
          (((List.range ds.length).map (fun i => s.nextId + i)).zip ds).map
            (fun p => ⟨p.1, storedFields p.2⟩))
        { s with nextId := s.nextId + ds.length })
  else
    (.error (.validation ("grocery validation failed" : String)), s)

/-- The `ObjectId` cast of the `:id` path parameter, modelled as reading a
nonempty all-digit string (a malformed id yields `none`, exactly as a
malformed hex `ObjectId` raises a CastError). -/
def parseId (idStr : String) : Option Nat :=
  if !idStr.data.isEmpty && idStr.data.all (fun ch => ch.isDigit) then
    some (idStr.data.foldl (fun n ch => n * 10 + (ch.toNat - '0'.toNat)) 0)
  else none

/-- `Model.findByIdAndDelete(id)`: cast the id (a malformed id throws a
CastError), then delete and return the matching document, or return null. -/
def modelFindByIdAndDelete (m : MModel) (idStr : String) (s : St) :
    Except Err (Option SDoc) × St :=
  match parseId idStr with
  | none => (.error (.castFail idStr), s)
  | some n =>
    match (getColl m s).find? (fun d => d.docId == n) with
    | none => (.ok none, s)
    | some d =>
      (.ok (some d),
        setColl m ((getColl m s).filter (fun e => e.docId != n)) s)

/-- Apply `$set` of one field: overwrite in place if the path exists,
append otherwise. -/
def setField (f : String) (v : Prim) (d : Doc) : Doc :=
  if (d.find? (fun fv => fv.1 == f)).isSome then
    d.map (fun fv => if fv.1 == f then (f, v) else fv)
  else
    d ++ [(f, v)]

/-- Apply `{ $set: upd }` to a document's fields: strict mode strips paths
outside the schema, the rest are set one by one. -/
def applySet (upd : Doc) (d : Doc) : Doc :=
  (upd.filter (fun fv => schemaFields.contains fv.1)).foldl
    (fun acc fv => setField fv.1 fv.2 acc) d

/-- `Model.findByIdAndUpdate(id, { $set: upd }, { new: true, runValidators:
true })`: cast the id, run the update validators on the `$set` paths, then
merge into the matched document and return the updated document (or null). -/
def modelFindByIdAndUpdate (m : MModel) (idStr : String) (upd : Doc) (s : St) :
    Except Err (Option SDoc) × St :=
  match parseId idStr with
  | none => (.error (.castFail idStr), s)
  | some n =>
    if upd.all (fun fv => fieldOk fv.1 fv.2) then
      match (getColl m s).find? (fun d => d.docId == n) with
      | none => (.ok none, s)
      | some d =>
        (.ok (some ⟨d.docId, applySet upd d.fields⟩),
          setColl m
            ((getColl m s).map
              (fun e => if e.docId == n then ⟨d.docId, applySet upd d.fields⟩ else e))
            s)
    else
      (.error (.validation ("update validation failed" : String)), s)

/-- The serialized responses the four handlers can produce. -/
inductive Resp where
  | foundDocs : List SDoc → Resp
  | inserted : Nat → Resp
  | insertedMany : List Nat → Resp
  | missingBody : Resp
  | deleteNotFound : String → Resp
  | deleted : String → Resp
  | updateNotFound : Resp
  | updated : SDoc → Resp
  | serverError : String → Resp
deriving DecidableEq, Repr

/-- The HTTP status each response is sent with. -/
def Resp.status : Resp → Nat
  | .foundDocs _ => 200
  | .inserted _ => 201
  | .insertedMany _ => 201
  | .missingBody => 400
  | .deleteNotFound _ => 404
  | .deleted _ => 200
  | .updateNotFound => 404
  | .updated _ => 200
  | .serverError _ => 500

/-- The request body of `POST /insert/...`: its two recognized fields. -/
structure InsertBody where
  document : Option JVal
  documents : Option JVal
deriving DecidableEq, Repr

/-- The `documents` branch of the insert handler: `insertMany` when the field
is an array, otherwise the 400 response. -/
def insertTail (m : MModel) (body : InsertBody) (s : St) : Resp × St :=
  match body.documents with
  | some (.arr ds) =>
    match modelInsertMany m ds s with
    | (.ok ids, s₂) => (.insertedMany ids, s₂)
    | (.error e, s₂) => (.serverError e.message, s₂)
  | _ => (.missingBody, s)

/-- `app.post("/insert/:database/:collection")`: acquire the model, then
single insert when `document` is truthy, batch insert when `documents` is an
array, 400 otherwise; any thrown error becomes a 500. -/
def insertHandler (connectOk : String → Bool) (database collection : String)
    (body : InsertBody) (s : St) : Resp × St :=
  match getModel connectOk database collection s with
  | (.error e, s₁) => (.serverError e.message, s₁)
  | (.ok m, s₁) =>
    match body.document with
    | some v =>
      if truthy v then
        match modelCreate m v s₁ with
        | (.ok i, s₂) => (.inserted i, s₂)
        | (.error e, s₂) => (.serverError e.message, s₂)
      else insertTail m body s₁
    | none => insertTail m body s₁

/-- `app.get("/find/:database/:collection")`: acquire the model and scan. -/
def findHandler (connectOk : String → Bool) (database collection : String)
    (s : St) : Resp × St :=
  match getModel connectOk database collection s with
  | (.error e, s₁) => (.serverError e.message, s₁)
  | (.ok m, s₁) => (.foundDocs (getColl m s₁), s₁)

/-- `app.delete("/delete/:database/:collection/:id")`: acquire the model,
delete by id; null result is a 404, a thrown error a 500. -/
def deleteHandler (connectOk : String → Bool)
    (database collection idStr : String) (s : St) : Resp × St :=
  match getModel connectOk database collection s with
  | (.error e, s₁) => (.serverError e.message, s₁)
  | (.ok m, s₁) =>
    match modelFindByIdAndDelete m idStr s₁ with
    | (.error e, s₂) => (.serverError e.message, s₂)
    | (.ok none, s₂) => (.deleteNotFound idStr, s₂)
    | (.ok (some _), s₂) => (.deleted idStr, s₂)

/-- `app.put("/update/:database/:collection/:id")`: acquire the model, merge
`req.body.update` into the matched document; null result is a 404, a thrown
error a 500.  An absent `update` field is an empty `$set`. -/
def updateHandler (connectOk : String → Bool)
    (database collection idStr : String) (upd : Option Doc) (s : St) :
    Resp × St :=
  match getModel connectOk database collection s with
  | (.error e, s₁) => (.serverError e.message, s₁)
  | (.ok m, s₁) =>
    match modelFindByIdAndUpdate m idStr (upd.getD []) s₁ with
    | (.error e, s₂) => (.serverError e.message, s₂)
    | (.ok none, s₂) => (.updateNotFound, s₂)
    | (.ok (some d), s₂) => (.updated d, s₂)

/-- One server-level operation, for stating properties over arbitrary
sequences of requests. -/
inductive Op where
  | conn : (String → Bool) → String → Op
  | model : (String → Bool) → String → String → Op
  | find : (String → Bool) → String → String → Op
  | insert : (String → Bool) → String → String → InsertBody → Op
  | del : (String → Bool) → String → String → String → Op
  | update : (String → Bool) → String → String → String → Option Doc → Op

/-- Run one operation for its state effect. -/
def applyOp (s : St) : Op → St
  | .conn ok d => (getConnection ok d s).2
  | .model ok d c => (getModel ok d c s).2
  | .find ok d c => (findHandler ok d c s).2
  | .insert ok d c b => (insertHandler ok d c b s).2
  | .del ok d c i => (deleteHandler ok d c i s).2
  | .update ok d c i u => (updateHandler ok d c i u s).2

/-- Run a sequence of operations. -/
def runOps (ops : List Op) (s : St) : St := ops.foldl applyOp s

/-- An interleaving of two concurrent `getConnection` calls for the same
name: both run the cache check of line 48 before either `createConnection`
resolves, so on a shared miss each proceeds to create and assign, the second
assignment shadowing the first.  (Between the resolved `await` and the
`return` there is no suspension point, so each call returns the handle it
itself stored.) -/
def getConnectionRace (connectOk : String → Bool) (dbName : String) (s : St) :
    Except Err ConnHandle × Except Err ConnHandle × St :=
  match connCheck dbName s with
  | some h => (.ok h, .ok h, s)
  | none =>
    match connCreate connectOk dbName s with
    | (rA, s₁) =>
      match connCreate connectOk dbName s₁ with
      | (rB, s₂) => (rA, rB, s₂)

/-- A connection oracle that always succeeds. -/
def okAll : String → Bool := fun _ => true

/-- A string with no hyphen, so that it cannot collide inside a composite
model key. -/
def hyphenFree (s : String) : Bool := s.data.all (fun ch => decide (ch ≠ '-'))

/-- The invariant tying the two registries together in any state reachable
using hyphen-free database names: cached handles are keyed by their own
database, and every cached model records the composite key it sits under and
the connection it was bound to. -/
structure WF (s : St) : Prop where
  conn_db : ∀ d h, alookup d s.connections = some h → h.dbName = d
  model_wf : ∀ k m, alookup k s.models = some m →
    k = modelKey m.dbName m.collName ∧ hyphenFree m.dbName = true ∧
      ∃ h, alookup m.dbName s.connections = some h ∧ m.connId = h.connId

/-! ## Basic lemmas about the caches -/

theorem alookup_aset_self {α β : Type} [DecidableEq α] (k : α) (v : β)
    (l : List (α × β)) : alookup k (aset k v l) = some v := by
  simp [alookup, aset]

theorem alookup_aset_other {α β : Type} [DecidableEq α] {k k₁ : α}
    (h : k ≠ k₁) (v : β) (l : List (α × β)) :
    alookup k (aset k₁ v l) = alookup k l := by
  simp [alookup, aset, h]

/-- A cache hit returns the cached handle with the state untouched. -/
theorem getConnection_cached {ok : String → Bool} {d : String} {s : St}
    {h : ConnHandle} (hc : alookup d s.connections = some h) :
    getConnection ok d s = (.ok h, s) := by
  simp [getConnection, connCheck, hc]

/-- After a successful `getConnection`, the returned handle is the cached one. -/
theorem getConnection_ok_mem {ok : String → Bool} {d : String} {s s' : St}
    {h : ConnHandle} (hg : getConnection ok d s = (.ok h, s')) :
    alookup d s'.connections = some h := by
  unfold getConnection at hg
  cases hc : connCheck d s with
  | some h₀ =>
    rw [hc] at hg
    cases hg
    exact hc
  | none =>
    rw [hc] at hg
    unfold connCreate at hg
    by_cases hok : ok d = true
    · simp [hok] at hg
      obtain ⟨hh, hs⟩ := hg
      subst hh hs
      exact alookup_aset_self ..
    · simp [hok] at hg

/-- `getConnection` never disturbs an existing connection entry. -/
theorem getConnection_preserves {ok : String → Bool} {e : String} {s : St}
    {d : String} {h : ConnHandle} (hc : alookup d s.connections = some h) :
    alookup d ((getConnection ok e s).2).connections = some h := by
  unfold getConnection
  cases he : connCheck e s with
  | some h₀ => simpa using hc
  | none =>
    unfold connCreate
    by_cases hok : ok e = true
    · have hne : d ≠ e := by
        intro hde
        subst hde
        rw [connCheck, hc] at he
        cases he
      simpa [hok, alookup_aset_other hne] using hc
    · simpa [hok] using hc

/-- `getModel` never disturbs an existing connection entry. -/
theorem getModel_preserves {ok : String → Bool} {dn c : String} {s : St}
    {d : String} {h : ConnHandle} (hc : alookup d s.connections = some h) :
    alookup d ((getModel ok dn c s).2).connections = some h := by
  unfold getModel
  cases hm : alookup (modelKey dn c) s.models with
  | some m => simpa using hc
  | none =>
    cases hg : getConnection ok dn s with
    | mk r s₁ =>
      have := @getConnection_preserves ok dn s d h hc
      rw [hg] at this
      cases r with
      | ok conn => simpa using this
      | error e => simpa using this

theorem modelCreate_connections (m : MModel) (v : JVal) (s : St) :
    ((modelCreate m v s).2).connections = s.connections := by
  unfold modelCreate
  cases v with
  | obj fields =>
    by_cases hv : validateDoc fields = true <;> simp [hv, setColl]
  | prim p => rfl
  | arr ds => rfl

theorem modelInsertMany_connections (m : MModel) (ds : List Doc) (s : St) :
    ((modelInsertMany m ds s).2).connections = s.connections := by
  unfold modelInsertMany
  by_cases hv : ds.all validateDoc = true <;> simp [hv, setColl]

theorem modelFindByIdAndDelete_connections (m : MModel) (idStr : String)
    (s : St) : ((modelFindByIdAndDelete m idStr s).2).connections =
      s.connections := by
  unfold modelFindByIdAndDelete
  split
  · rfl
  · split
    · rfl
    · simp [setColl]

theorem modelFindByIdAndUpdate_connections (m : MModel) (idStr : String)
    (upd : Doc) (s : St) :
    ((modelFindByIdAndUpdate m idStr upd s).2).connections = s.connections := by
  unfold modelFindByIdAndUpdate
  split
  · rfl
  · split
    · split
      · rfl
      · simp [setColl]
    · rfl

theorem insertTail_connections (m : MModel) (b : InsertBody) (s : St) :
    ((insertTail m b s).2).connections = s.connections := by
  unfold insertTail
  split
  · rename_i ds heq
    cases him : modelInsertMany m ds s with
    | mk ri si =>
      have hc := modelInsertMany_connections m ds s
      rw [him] at hc
      cases ri <;> exact hc
  · rfl

theorem findHandler_connections (ok : String → Bool) (e c : String) (s : St) :
    ((findHandler ok e c s).2).connections =
      ((getModel ok e c s).2).connections := by
  unfold findHandler
  cases hg : getModel ok e c s with
  | mk r s₁ => cases r <;> rfl

theorem insertHandler_connections (ok : String → Bool) (e c : String)
    (b : InsertBody) (s : St) :
    ((insertHandler ok e c b s).2).connections =
      ((getModel ok e c s).2).connections := by
  unfold insertHandler
  cases hg : getModel ok e c s with
  | mk r s₁ =>
    cases r with
    | error err => rfl
    | ok m =>
      show ((match b.document with
        | some v =>
          if truthy v then
            match modelCreate m v s₁ with
            | (.ok i, s₂) => (Resp.inserted i, s₂)
            | (.error e, s₂) => (.serverError e.message, s₂)
          else insertTail m b s₁
        | none => insertTail m b s₁).2).connections = s₁.connections
      cases b.document with
      | none => exact insertTail_connections m b s₁
      | some v =>
        show ((if truthy v = true then
            match modelCreate m v s₁ with
            | (.ok i, s₂) => (Resp.inserted i, s₂)
            | (.error e, s₂) => (.serverError e.message, s₂)
          else insertTail m b s₁)).2.connections = s₁.connections
        by_cases ht : truthy v = true
        · rw [if_pos ht]
          cases hcr : modelCreate m v s₁ with
          | mk rc sc =>
            have hc := modelCreate_connections m v s₁
            rw [hcr] at hc
            cases rc <;> exact hc
        · rw [if_neg ht]
          exact insertTail_connections m b s₁

theorem deleteHandler_connections (ok : String → Bool) (e c i : String)
    (s : St) :
    ((deleteHandler ok e c i s).2).connections =
      ((getModel ok e c s).2).connections := by
  unfold deleteHandler
  cases hg : getModel ok e c s with
  | mk r s₁ =>
    cases r with
    | error err => rfl
    | ok m =>
      show ((match modelFindByIdAndDelete m i s₁ with
        | (.error e, s₂) => (Resp.serverError e.message, s₂)
        | (.ok none, s₂) => (.deleteNotFound i, s₂)
        | (.ok (some _), s₂) => (.deleted i, s₂)).2).connections =
          s₁.connections
      cases hdel : modelFindByIdAndDelete m i s₁ with
      | mk rd sd =>
        have hc := modelFindByIdAndDelete_connections m i s₁
        rw [hdel] at hc
        cases rd with
        | error err => exact hc
        | ok o => cases o <;> exact hc

theorem updateHandler_connections (ok : String → Bool) (e c i : String)
    (u : Option Doc) (s : St) :
    ((updateHandler ok e c i u s).2).connections =
      ((getModel ok e c s).2).connections := by
  unfold updateHandler
  cases hg : getModel ok e c s with
  | mk r s₁ =>
    cases r with
    | error err => rfl
    | ok m =>
      show ((match modelFindByIdAndUpdate m i (u.getD []) s₁ with
        | (.error e, s₂) => (Resp.serverError e.message, s₂)
        | (.ok none, s₂) => (Resp.updateNotFound, s₂)
        | (.ok (some d), s₂) => (.updated d, s₂)).2).connections =
          s₁.connections
      cases hup : modelFindByIdAndUpdate m i (u.getD []) s₁ with
      | mk ru su =>
        have hc := modelFindByIdAndUpdate_connections m i (u.getD []) s₁
        rw [hup] at hc
        cases ru with
        | error err => exact hc
        | ok o => cases o <;> exact hc

/-- Every server operation preserves an existing connection entry. -/
theorem applyOp_preserves {d : String} {h : ConnHandle} {s : St}
    (hc : alookup d s.connections = some h) (op : Op) :
    alookup d ((applyOp s op).connections) = some h := by
  cases op with
  | conn ok e => exact getConnection_preserves hc
  | model ok e c => exact getModel_preserves hc
  | find ok e c =>
    show alookup d ((findHandler ok e c s).2).connections = some h
    rw [findHandler_connections]
    exact getModel_preserves hc
  | insert ok e c b =>
    show alookup d ((insertHandler ok e c b s).2).connections = some h
    rw [insertHandler_connections]
    exact getModel_preserves hc
  | del ok e c i =>
    show alookup d ((deleteHandler ok e c i s).2).connections = some h
    rw [deleteHandler_connections]
    exact getModel_preserves hc
  | update ok e c i u =>
    show alookup d ((updateHandler ok e c i u s).2).connections = some h
    rw [updateHandler_connections]
    exact getModel_preserves hc

/-- Any sequence of operations preserves an existing connection entry. -/
theorem runOps_preserves {d : String} {h : ConnHandle} {s : St}
    (hc : alookup d s.connections = some h) (ops : List Op) :
    alookup d ((runOps ops s).connections) = some h := by
  induction ops generalizing s with
  | nil => exact hc
  | cons op rest ih => exact ih (applyOp_preserves hc op)

/-- A connection oracle that always fails. -/
def okNone : String → Bool := fun _ => false

/-- The state after one successful `getConnection` for database `db` from the
empty state. -/
def stDb : St :=
  ⟨[(("db" : String), ⟨0, ("db" : String)⟩)], [], [], 1, [("db" : String)]⟩

/-! ## Claim theorems -/

/-- C3: after a first successful `acquireConnection(d)` (`getConnection`),
every subsequent call with the same `d` — in any state reached by running
further server operations — returns the identical cached handle with the
state completely untouched: in particular the `opened` trace does not grow,
so the connection-opening side effect happens on cache miss only, never on a
cache hit. -/
theorem getConnection_identical_after_success
    (ok ok₂ : String → Bool) (d : String) (s s' : St) (h : ConnHandle)
    (ops : List Op) (hsucc : getConnection ok d s = (.ok h, s')) :
    getConnection ok₂ d (runOps ops s') = (.ok h, runOps ops s') :=
  getConnection_cached (runOps_preserves (getConnection_ok_mem hsucc) ops)

theorem getConnection_identical_after_success_witness :
    getConnection okAll ("db" : String)
        (runOps [Op.model okAll ("db" : String) ("c" : String)] stDb) =
      (.ok ⟨0, ("db" : String)⟩,
        runOps [Op.model okAll ("db" : String) ("c" : String)] stDb) :=
  getConnection_identical_after_success okAll okAll ("db" : String) stEmpty
    stDb ⟨0, ("db" : String)⟩ [Op.model okAll ("db" : String) ("c" : String)]
    (by decide)

/-- C4: when the connection attempt for `d` fails, `getConnection` propagates
the error and returns the state unchanged — no entry for `d` is cached — and
a subsequent call for the same `d` performs a fresh connection attempt,
opening a connection (the `opened` trace grows by `d`). -/
theorem getConnection_failure_not_cached
    (ok ok₂ : String → Bool) (d : String) (s : St)
    (hmiss : alookup d s.connections = none)
    (hfail : ok d = false) (hretry : ok₂ d = true) :
    getConnection ok d s = (.error (.connFail d), s) ∧
      getConnection ok₂ d s =
        (.ok ⟨s.nextId, d⟩,
          { s with
            connections := aset d ⟨s.nextId, d⟩ s.connections
            nextId := s.nextId + 1
            opened := s.opened ++ [d] }) := by
  constructor
  · simp [getConnection, connCheck, hmiss, connCreate, hfail]
  · simp [getConnection, connCheck, hmiss, connCreate, hretry]

theorem getConnection_failure_not_cached_witness :
    getConnection okNone ("db" : String) stEmpty =
        (.error (.connFail ("db" : String)), stEmpty) ∧
      getConnection okAll ("db" : String) stEmpty =
        (.ok ⟨0, ("db" : String)⟩,
          { stEmpty with
            connections :=
              aset ("db" : String) ⟨0, ("db" : String)⟩ stEmpty.connections
            nextId := 1
            opened := stEmpty.opened ++ [("db" : String)] }) :=
  getConnection_failure_not_cached okNone okAll ("db" : String) stEmpty
    (by decide) (by decide) (by decide)

/-- C6 counterexample: two concurrent first `getConnection("db")` calls that
interleave at the `await` each open a connection: the callers receive
distinct handles (ids 0 and 1) and the `opened` trace records two opens for
`db` — refuting "all callers receive the same resulting handle instance and
exactly one underlying connection is opened". -/
theorem getConnectionRace_two_opens_cex :
    (getConnectionRace okAll ("db" : String) stEmpty).1 =
        .ok ⟨0, ("db" : String)⟩ ∧
      (getConnectionRace okAll ("db" : String) stEmpty).2.1 =
        .ok ⟨1, ("db" : String)⟩ ∧
      (⟨0, ("db" : String)⟩ : ConnHandle) ≠ ⟨1, ("db" : String)⟩ ∧
      (getConnectionRace okAll ("db" : String) stEmpty).2.2.opened =
        [("db" : String), ("db" : String)] := by
  decide

/-- C6 (amended): the bare check-then-create in `getConnection` is not
single-flight.  From any state with no cached entry for `d`, two calls for
`d` that both pass the cache check before either create resolves each open a
connection: the callers receive two distinct handles, the `opened` trace
grows by two entries, and the second assignment shadows the first in the
registry.  (Sequential calls, by contrast, open at most one connection: C3.) -/
theorem getConnectionRace_not_single_flight
    (ok : String → Bool) (d : String) (s : St)
    (hmiss : alookup d s.connections = none) (hok : ok d = true) :
    getConnectionRace ok d s =
        (.ok ⟨s.nextId, d⟩, .ok ⟨s.nextId + 1, d⟩,
          { s with
            connections :=
              aset d ⟨s.nextId + 1, d⟩ (aset d ⟨s.nextId, d⟩ s.connections)
            nextId := s.nextId + 2
            opened := s.opened ++ [d] ++ [d] }) ∧
      (⟨s.nextId, d⟩ : ConnHandle) ≠ ⟨s.nextId + 1, d⟩ := by
  constructor
  · simp [getConnectionRace, connCheck, hmiss, connCreate, hok, aset]
  · simp

theorem getConnectionRace_not_single_flight_witness :
    getConnectionRace okAll ("db" : String) stEmpty =
        (.ok ⟨0, ("db" : String)⟩, .ok ⟨0 + 1, ("db" : String)⟩,
          { stEmpty with
            connections :=
              aset ("db" : String) ⟨0 + 1, ("db" : String)⟩
                (aset ("db" : String) ⟨0, ("db" : String)⟩ stEmpty.connections)
            nextId := 0 + 2
            opened := stEmpty.opened ++ [("db" : String)] ++ [("db" : String)] }) ∧
      (⟨0, ("db" : String)⟩ : ConnHandle) ≠ ⟨0 + 1, ("db" : String)⟩ :=
  getConnectionRace_not_single_flight okAll ("db" : String) stEmpty
    (by decide) (by decide)

/-! ## The composite key and its collision structure -/

theorem string_data_append (s t : String) : (s ++ t).data = s.data ++ t.data :=
  rfl

/-- Splitting at a separator absent from both prefixes is unambiguous. -/
theorem sep_split_inj :
    ∀ (a : List Char), a.all (fun ch => decide (ch ≠ '-')) = true →
      ∀ (b : List Char), b.all (fun ch => decide (ch ≠ '-')) = true →
        ∀ (c d : List Char), a ++ '-' :: c = b ++ '-' :: d →
          a = b ∧ c = d := by
  intro a
  induction a with
  | nil =>
    intro _ b hb c d h
    cases b with
    | nil => simpa using h
    | cons x xs =>
      simp only [List.nil_append, List.cons_append, List.cons.injEq] at h
      simp only [List.all_cons, Bool.and_eq_true, decide_eq_true_eq] at hb
      exact absurd h.1.symm hb.1
  | cons x xs ih =>
    intro ha b hb c d h
    cases b with
    | nil =>
      simp only [List.cons_append, List.nil_append, List.cons.injEq] at h
      simp only [List.all_cons, Bool.and_eq_true, decide_eq_true_eq] at ha
      exact absurd h.1 ha.1
    | cons y ys =>
      simp only [List.cons_append, List.cons.injEq] at h
      simp only [List.all_cons, Bool.and_eq_true, decide_eq_true_eq] at ha hb
      obtain ⟨hxy, hrest⟩ := h
      obtain ⟨h₁, h₂⟩ := ih ha.2 ys hb.2 c d hrest
      exact ⟨by rw [hxy, h₁], h₂⟩

/-- On hyphen-free database names the composite key is injective. -/
theorem modelKey_inj {d₁ c₁ d₂ c₂ : String}
    (h₁ : hyphenFree d₁ = true) (h₂ : hyphenFree d₂ = true)
    (h : modelKey d₁ c₁ = modelKey d₂ c₂) : d₁ = d₂ ∧ c₁ = c₂ := by
  unfold modelKey at h
  have hdata := congrArg String.data h
  simp only [string_data_append, List.append_assoc] at hdata
  have hdata' : d₁.data ++ '-' :: c₁.data = d₂.data ++ '-' :: c₂.data := by
    simpa using hdata
  obtain ⟨ha, hb⟩ := sep_split_inj d₁.data h₁ d₂.data h₂ _ _ hdata'
  exact ⟨String.ext ha, String.ext hb⟩

/-- Distinct collection names under one database give distinct composite
keys, with no hypothesis on the names. -/
theorem modelKey_ne_of_coll_ne {d c₁ c₂ : String} (h : c₁ ≠ c₂) :
    modelKey d c₁ ≠ modelKey d c₂ := by
  intro hk
  apply h
  unfold modelKey at hk
  have hdata := congrArg String.data hk
  simp only [string_data_append, List.append_assoc] at hdata
  have := List.append_cancel_left hdata
  have := List.tail_eq_of_cons_eq this
  exact String.ext (by simpa using this)

/-! ## The registry invariant -/

theorem wfEmpty : WF stEmpty := by
  constructor
  · intro d h hd
    exact Option.noConfusion hd
  · intro k m hm
    exact Option.noConfusion hm

/-- Adding a fresh, correctly-keyed connection preserves the invariant. -/
theorem wf_aset_conn {d : String} {s : St} (hwf : WF s)
    (hmiss : alookup d s.connections = none) (n : Nat) :
    WF { s with
          connections := aset d ⟨n, d⟩ s.connections
          nextId := s.nextId + 1
          opened := s.opened ++ [d] } := by
  constructor
  · intro e h he
    by_cases hed : e = d
    · subst hed
      rw [alookup_aset_self] at he
      cases he
      rfl
    · rw [alookup_aset_other hed] at he
      exact hwf.conn_db e h he
  · intro k m hm
    obtain ⟨hk, hhf, h₀, hh₀, hid⟩ := hwf.model_wf k m hm
    refine ⟨hk, hhf, h₀, ?_, hid⟩
    by_cases hmd : m.dbName = d
    · rw [hmd, hmiss] at hh₀
      exact Option.noConfusion hh₀
    · rw [alookup_aset_other hmd]
      exact hh₀

/-- `getConnection` preserves the invariant. -/
theorem getConnection_wf {ok : String → Bool} {d : String} {s s' : St}
    {r : Except Err ConnHandle} (hwf : WF s)
    (hg : getConnection ok d s = (r, s')) : WF s' := by
  unfold getConnection at hg
  cases hc : connCheck d s with
  | some h =>
    rw [hc] at hg
    cases hg
    exact hwf
  | none =>
    rw [hc] at hg
    unfold connCreate at hg
    by_cases hok : ok d = true
    · rw [if_pos hok] at hg
      cases hg
      exact wf_aset_conn hwf hc s.nextId
    · rw [if_neg hok] at hg
      cases hg
      exact hwf

/-- A successfully acquired handle is named after its database. -/
theorem getConnection_ok_dbName {ok : String → Bool} {d : String} {s s' : St}
    {h : ConnHandle} (hwf : WF s) (hg : getConnection ok d s = (.ok h, s')) :
    h.dbName = d := by
  unfold getConnection at hg
  cases hc : connCheck d s with
  | some h₀ =>
    rw [hc] at hg
    cases hg
    exact hwf.conn_db d _ hc
  | none =>
    rw [hc] at hg
    unfold connCreate at hg
    by_cases hok : ok d = true
    · rw [if_pos hok] at hg
      cases hg
      rfl
    · rw [if_neg hok] at hg
      cases hg

theorem getConnection_models (ok : String → Bool) (d : String) (s : St) :
    ((getConnection ok d s).2).models = s.models := by
  unfold getConnection connCreate
  split
  · rfl
  · split <;> rfl

/-- `getModel` preserves model-cache entries under every other key. -/
theorem getModel_preserves_model {ok : String → Bool} {dn c₂ : String}
    {s : St} {k : String} {m : MModel} (hk : alookup k s.models = some m)
    (hne : k ≠ modelKey dn c₂) :
    alookup k ((getModel ok dn c₂ s).2).models = some m := by
  unfold getModel
  cases hmc : alookup (modelKey dn c₂) s.models with
  | some m₀ => exact hk
  | none =>
    cases hgc : getConnection ok dn s with
    | mk r s₁ =>
      have hms := getConnection_models ok dn s
      rw [hgc] at hms
      cases r with
      | error e => rw [hms]; exact hk
      | ok conn =>
        show alookup k
          (aset (modelKey dn c₂) ⟨s₁.nextId, conn.connId, conn.dbName, c₂⟩
            s₁.models) = some m
        rw [alookup_aset_other hne, hms]
        exact hk

/-- A model-cache hit returns the cached model with the state untouched. -/
theorem getModel_cached {ok : String → Bool} {d c : String} {s : St}
    {m : MModel} (hm : alookup (modelKey d c) s.models = some m) :
    getModel ok d c s = (.ok m, s) := by
  unfold getModel
  rw [hm]

/-- What a successful `getModel` guarantees under the invariant, for a
hyphen-free database name: the invariant is maintained, the returned accessor
is bound to collection `c` on the connection registered for `d`, and it is
cached under the composite key. -/
theorem getModel_ok_sound {ok : String → Bool} {d c : String} {s s' : St}
    {m : MModel} (hwf : WF s) (hd : hyphenFree d = true)
    (hg : getModel ok d c s = (.ok m, s')) :
    WF s' ∧ m.dbName = d ∧ m.collName = c ∧
      alookup (modelKey d c) s'.models = some m ∧
      alookup d s'.connections = some ⟨m.connId, d⟩ := by
  unfold getModel at hg
  cases hmc : alookup (modelKey d c) s.models with
  | some m₀ =>
    rw [hmc] at hg
    cases hg
    obtain ⟨hk, hhf, h₀, hh₀, hid⟩ := hwf.model_wf _ m hmc
    obtain ⟨hdd, hcc⟩ := modelKey_inj hd hhf hk
    have hdb₀ : h₀.dbName = m.dbName := hwf.conn_db _ h₀ hh₀
    refine ⟨hwf, hdd.symm, hcc.symm, hmc, ?_⟩
    have hhe : h₀ = ⟨m.connId, d⟩ := by
      cases h₀
      simp only [ConnHandle.mk.injEq]
      exact ⟨hid.symm, hdb₀.trans hdd.symm⟩
    rw [hhe] at hh₀
    rw [← hdd] at hh₀
    exact hh₀
  | none =>
    rw [hmc] at hg
    cases hgc : getConnection ok d s with
    | mk r s₁ =>
      rw [hgc] at hg
      cases r with
      | error e => cases hg
      | ok conn =>
        cases hg
        have hwf₁ : WF s₁ := getConnection_wf hwf hgc
        have hdb : conn.dbName = d := getConnection_ok_dbName hwf hgc
        have hconn₁ : alookup d s₁.connections = some conn :=
          getConnection_ok_mem hgc
        refine ⟨?_, hdb, rfl, ?_, ?_⟩
        · constructor
          · intro e h he
            exact hwf₁.conn_db e h he
          · intro k m₂ hm₂
            by_cases hkk : k = modelKey d c
            · subst hkk
              rw [alookup_aset_self] at hm₂
              cases hm₂
              refine ⟨by rw [hdb], by rw [hdb]; exact hd, conn, ?_, rfl⟩
              rw [hdb]
              exact hconn₁
            · rw [alookup_aset_other hkk] at hm₂
              exact hwf₁.model_wf k m₂ hm₂
        · exact alookup_aset_self ..
        · show alookup d s₁.connections = some ⟨conn.connId, d⟩
          have : conn = ⟨conn.connId, d⟩ := by
            cases conn
            simp only [ConnHandle.mk.injEq, true_and]
            exact hdb
          rw [← this]
          exact hconn₁

/-- The state after `getModel okAll "db" "coll"` from the empty state. -/
def stDbColl : St :=
  ⟨[(("db" : String), ⟨0, ("db" : String)⟩)],
    [(modelKey ("db" : String) ("coll" : String),
      ⟨1, 0, ("db" : String), ("coll" : String)⟩)], [], 2, [("db" : String)]⟩

/-- The state after `getModel okAll "db" "c1"` from the empty state. -/
def stDbC1 : St :=
  ⟨[(("db" : String), ⟨0, ("db" : String)⟩)],
    [(modelKey ("db" : String) ("c1" : String),
      ⟨1, 0, ("db" : String), ("c1" : String)⟩)], [], 2, [("db" : String)]⟩

/-- The state after `getModel okAll "db" "c2"` from `stDbC1`. -/
def stDbC12 : St :=
  ⟨[(("db" : String), ⟨0, ("db" : String)⟩)],
    [(modelKey ("db" : String) ("c2" : String),
       ⟨2, 0, ("db" : String), ("c2" : String)⟩),
     (modelKey ("db" : String) ("c1" : String),
       ⟨1, 0, ("db" : String), ("c1" : String)⟩)], [], 3, [("db" : String)]⟩

/-- C1 counterexample: the composite key `dbName-collectionName` is ambiguous.
The two distinct pairs ("a-b", "c") and ("a", "b-c") both key the entry
"a-b-c", so after creating the accessor for ("a-b", "c") the call for
("a", "b-c") returns that same cache entry — an accessor bound to database
"a-b"'s connection, not to a connection for "a". -/
theorem getModel_key_collision_cex :
    (getModel okAll ("a-b" : String) ("c" : String) stEmpty).1 =
        .ok ⟨1, 0, ("a-b" : String), ("c" : String)⟩ ∧
      (getModel okAll ("a" : String) ("b-c" : String)
          ((getModel okAll ("a-b" : String) ("c" : String) stEmpty).2)).1 =
        .ok ⟨1, 0, ("a-b" : String), ("c" : String)⟩ ∧
      modelKey ("a-b" : String) ("c" : String) =
        modelKey ("a" : String) ("b-c" : String) ∧
      ((("a-b" : String), ("c" : String)) : String × String) ≠
        (("a" : String), ("b-c" : String)) ∧
      (⟨1, 0, ("a-b" : String), ("c" : String)⟩ : MModel).dbName ≠
        ("a" : String) := by
  decide

/-- C1 (amended): restricted to hyphen-free database names, the composite key
is injective — two distinct pairs never resolve to the same cache entry — and
a successful `getModel(d, c)` returns the accessor bound to collection `c` on
exactly the connection handle registered for `d`, which is what
`getConnection(d)` returns; the accessor is cached under the composite key. -/
theorem getModel_composite_key_sound
    (ok ok₂ : String → Bool) (d c d₂ c₂ : String) (s s' : St) (m : MModel)
    (hwf : WF s) (hd : hyphenFree d = true) (hd₂ : hyphenFree d₂ = true)
    (hg : getModel ok d c s = (.ok m, s')) :
    (modelKey d c = modelKey d₂ c₂ → d = d₂ ∧ c = c₂) ∧
      m.dbName = d ∧ m.collName = c ∧
      alookup (modelKey d c) s'.models = some m ∧
      alookup d s'.connections = some ⟨m.connId, d⟩ ∧
      getConnection ok₂ d s' = (.ok ⟨m.connId, d⟩, s') := by
  obtain ⟨hwf', hdb, hcol, hmod, hconn⟩ := getModel_ok_sound hwf hd hg
  exact ⟨fun hk => modelKey_inj hd hd₂ hk, hdb, hcol, hmod, hconn,
    getConnection_cached hconn⟩

theorem getModel_composite_key_sound_witness :
    (modelKey ("db" : String) ("coll" : String) =
          modelKey ("db" : String) ("other" : String) →
        ("db" : String) = ("db" : String) ∧
          ("coll" : String) = ("other" : String)) ∧
      (⟨1, 0, ("db" : String), ("coll" : String)⟩ : MModel).dbName =
        ("db" : String) ∧
      (⟨1, 0, ("db" : String), ("coll" : String)⟩ : MModel).collName =
        ("coll" : String) ∧
      alookup (modelKey ("db" : String) ("coll" : String)) stDbColl.models =
        some ⟨1, 0, ("db" : String), ("coll" : String)⟩ ∧
      alookup ("db" : String) stDbColl.connections =
        some ⟨(⟨1, 0, ("db" : String), ("coll" : String)⟩ : MModel).connId,
          ("db" : String)⟩ ∧
      getConnection okAll ("db" : String) stDbColl =
        (.ok ⟨(⟨1, 0, ("db" : String), ("coll" : String)⟩ : MModel).connId,
          ("db" : String)⟩, stDbColl) :=
  getModel_composite_key_sound okAll okAll ("db" : String) ("coll" : String)
    ("db" : String) ("other" : String) stEmpty stDbColl
    ⟨1, 0, ("db" : String), ("coll" : String)⟩ wfEmpty (by decide) (by decide)
    (by decide)

/-- C2 counterexample: key collisions break connection sharing.  After
`getModel("a-b", "c")`, the accessors for the distinct collections "b-c" and
"x" under the same database "a" do not share a connection: the first is the
collided entry bound to connection id 0 (database "a-b"), the second is a
fresh accessor bound to a new connection id 2 for "a". -/
theorem getModel_shared_connection_cex :
    (getModel okAll ("a" : String) ("b-c" : String)
        ((getModel okAll ("a-b" : String) ("c" : String) stEmpty).2)).1 =
      .ok ⟨1, 0, ("a-b" : String), ("c" : String)⟩ ∧
    (getModel okAll ("a" : String) ("x" : String)
        ((getModel okAll ("a" : String) ("b-c" : String)
          ((getModel okAll ("a-b" : String) ("c" : String) stEmpty).2)).2)).1 =
      .ok ⟨3, 2, ("a" : String), ("x" : String)⟩ ∧
    (⟨1, 0, ("a-b" : String), ("c" : String)⟩ : MModel).connId ≠
      (⟨3, 2, ("a" : String), ("x" : String)⟩ : MModel).connId := by
  decide

/-- C2 (amended): in an invariant-respecting state and for a hyphen-free
database name `d`, acquiring accessors for distinct collections `c₁ ≠ c₂`
yields distinct accessors bound to the one connection registered for `d`, and
a repeated call for `(d, c₁)` afterwards returns the identical first accessor
with the state untouched. -/
theorem getModel_pair_semantics
    (ok₁ ok₂ ok₃ : String → Bool) (d c₁ c₂ : String) (s s₁ s₂ : St)
    (m₁ m₂ : MModel) (hwf : WF s) (hd : hyphenFree d = true) (hne : c₁ ≠ c₂)
    (h₁ : getModel ok₁ d c₁ s = (.ok m₁, s₁))
    (h₂ : getModel ok₂ d c₂ s₁ = (.ok m₂, s₂)) :
    getModel ok₃ d c₁ s₂ = (.ok m₁, s₂) ∧ m₁ ≠ m₂ ∧
      m₁.connId = m₂.connId ∧
      alookup d s₂.connections = some ⟨m₁.connId, d⟩ := by
  obtain ⟨hwf₁, hdb₁, hcol₁, hmod₁, hconn₁⟩ := getModel_ok_sound hwf hd h₁
  obtain ⟨hwf₂, hdb₂, hcol₂, hmod₂, hconn₂⟩ := getModel_ok_sound hwf₁ hd h₂
  have hkey : modelKey d c₁ ≠ modelKey d c₂ := modelKey_ne_of_coll_ne hne
  have hmod₁' : alookup (modelKey d c₁) s₂.models = some m₁ := by
    have hp := @getModel_preserves_model ok₂ d c₂ s₁ (modelKey d c₁) m₁
      hmod₁ hkey
    rw [h₂] at hp
    exact hp
  have hconn₁' : alookup d s₂.connections = some ⟨m₁.connId, d⟩ := by
    have hp := @getModel_preserves ok₂ d c₂ s₁ d ⟨m₁.connId, d⟩ hconn₁
    rw [h₂] at hp
    exact hp
  have hcid : m₁.connId = m₂.connId := by
    have hsome := hconn₁'.symm.trans hconn₂
    simpa [ConnHandle.mk.injEq] using hsome
  refine ⟨getModel_cached hmod₁', ?_, hcid, hconn₁'⟩
  intro hmm
  apply hne
  rw [← hcol₁, ← hcol₂, hmm]

theorem getModel_pair_semantics_witness :
    getModel okAll ("db" : String) ("c1" : String) stDbC12 =
        (.ok ⟨1, 0, ("db" : String), ("c1" : String)⟩, stDbC12) ∧
      (⟨1, 0, ("db" : String), ("c1" : String)⟩ : MModel) ≠
        ⟨2, 0, ("db" : String), ("c2" : String)⟩ ∧
      (⟨1, 0, ("db" : String), ("c1" : String)⟩ : MModel).connId =
        (⟨2, 0, ("db" : String), ("c2" : String)⟩ : MModel).connId ∧
      alookup ("db" : String) stDbC12.connections =
        some ⟨(⟨1, 0, ("db" : String), ("c1" : String)⟩ : MModel).connId,
          ("db" : String)⟩ :=
  getModel_pair_semantics okAll okAll okAll ("db" : String) ("c1" : String)
    ("c2" : String) stEmpty stDbC1 stDbC12
    ⟨1, 0, ("db" : String), ("c1" : String)⟩
    ⟨2, 0, ("db" : String), ("c2" : String)⟩ wfEmpty (by decide) (by decide)
    (by decide) (by decide)

/-! ## Insert endpoint -/

theorem getConnection_store (ok : String → Bool) (d : String) (s : St) :
    ((getConnection ok d s).2).store = s.store := by
  unfold getConnection connCreate
  split
  · rfl
  · split <;> rfl

theorem getModel_store (ok : String → Bool) (d c : String) (s : St) :
    ((getModel ok d c s).2).store = s.store := by
  unfold getModel
  cases hmc : alookup (modelKey d c) s.models with
  | some m => rfl
  | none =>
    cases hgc : getConnection ok d s with
    | mk r s₁ =>
      have hst := getConnection_store ok d s
      rw [hgc] at hst
      cases r with
      | ok conn => exact hst
      | error e => exact hst

/-- With a succeeding connection oracle for `d`, `getModel` always succeeds. -/
theorem getModel_ok_total {ok : String → Bool} {d : String} (c : String)
    (s : St) (hok : ok d = true) :
    ∃ m s₁, getModel ok d c s = (.ok m, s₁) := by
  unfold getModel
  cases hmc : alookup (modelKey d c) s.models with
  | some m => exact ⟨m, s, rfl⟩
  | none =>
    cases hgc : getConnection ok d s with
    | mk r s₁ =>
      cases r with
      | ok conn => exact ⟨_, _, rfl⟩
      | error e =>
        exfalso
        unfold getConnection connCreate at hgc
        cases hc : connCheck d s with
        | some h =>
          rw [hc] at hgc
          cases hgc
        | none =>
          rw [hc] at hgc
          rw [if_pos hok] at hgc
          cases hgc

theorem modelCreate_invalid {m : MModel} {doc : Doc} {s : St}
    (h : validateDoc doc = false) :
    modelCreate m (.obj doc) s =
      (.error (.validation ("grocery validation failed" : String)), s) := by
  simp [modelCreate, h]

theorem modelCreate_valid {m : MModel} {doc : Doc} {s : St}
    (h : validateDoc doc = true) :
    modelCreate m (.obj doc) s =
      (.ok s.nextId,
        setColl m (getColl m s ++ [⟨s.nextId, storedFields doc⟩])
          { s with nextId := s.nextId + 1 }) := by
  simp [modelCreate, h]

theorem modelInsertMany_valid {m : MModel} {ds : List Doc} {s : St}
    (h : ds.all validateDoc = true) :
    modelInsertMany m ds s =
      (.ok ((List.range ds.length).map (fun i => s.nextId + i)),
        setColl m
          (getColl m s ++
            (((List.range ds.length).map (fun i => s.nextId + i)).zip ds).map
              (fun p => ⟨p.1, storedFields p.2⟩))
          { s with nextId := s.nextId + ds.length }) := by
  unfold modelInsertMany
  rw [if_pos h]

/-- The `documents` branch alone answers 400 exactly when the field is not an
array. -/
theorem insertTail_status_400 (m : MModel) (b : InsertBody) (s : St) :
    ((insertTail m b s).1.status = 400 ↔ optIsArray b.documents = false) := by
  unfold insertTail
  cases hd : b.documents with
  | none => simp [optIsArray, Resp.status]
  | some v =>
    cases v with
    | prim p => simp [optIsArray, Resp.status]
    | obj o => simp [optIsArray, Resp.status]
    | arr ds =>
      cases him : modelInsertMany m ds s with
      | mk ri si =>
        cases ri with
        | ok ids => simp [him, optIsArray, Resp.status]
        | error e => simp [him, optIsArray, Resp.status]

/-- C5 counterexample: an insert whose document is missing the required
food_group is answered with status 500 — the ValidationError falls into the
handler's catch-all — not with a 400-equivalent response. -/
theorem insert_validation_status_cex :
    (insertHandler okAll ("db" : String) ("c" : String)
        ⟨some (.obj [(("item" : String), .pStr ("apple" : String)),
          (("price_in_usd" : String), .pNum 2),
          (("quantity" : String), .pNum 3)]), none⟩ stEmpty).1.status = 500 ∧
      (insertHandler okAll ("db" : String) ("c" : String)
        ⟨some (.obj [(("item" : String), .pStr ("apple" : String)),
          (("price_in_usd" : String), .pNum 2),
          (("quantity" : String), .pNum 3)]), none⟩ stEmpty).1.status ≠ 400 := by
  decide

/-- C5 (amended): a document violating the schema's required/type/enum
constraints is rejected by validation before reaching storage — the store is
unchanged — but the failure is surfaced by the handler's catch-all as a 500
carrying the validation message, not as a 400-equivalent response. -/
theorem insert_invalid_rejected
    (ok : String → Bool) (d c : String) (doc : Doc) (s : St)
    (hok : ok d = true) (hinvalid : validateDoc doc = false) :
    (insertHandler ok d c ⟨some (.obj doc), none⟩ s).1 =
        .serverError ("grocery validation failed" : String) ∧
      ((insertHandler ok d c ⟨some (.obj doc), none⟩ s).2).store = s.store := by
  obtain ⟨m, s₁, hg⟩ := getModel_ok_total c s hok
  have hstore : s₁.store = s.store := by
    have hst := getModel_store ok d c s
    rw [hg] at hst
    exact hst
  unfold insertHandler
  rw [hg]
  show ((if truthy (.obj doc) = true then
      match modelCreate m (.obj doc) s₁ with
      | (.ok i, s₂) => (Resp.inserted i, s₂)
      | (.error e, s₂) => (.serverError e.message, s₂)
    else insertTail m ⟨some (.obj doc), none⟩ s₁).1 =
      .serverError ("grocery validation failed" : String)) ∧
    ((if truthy (.obj doc) = true then
      match modelCreate m (.obj doc) s₁ with
      | (.ok i, s₂) => (Resp.inserted i, s₂)
      | (.error e, s₂) => (.serverError e.message, s₂)
    else insertTail m ⟨some (.obj doc), none⟩ s₁).2).store = s.store
  have ht : truthy (JVal.obj doc) = true := rfl
  rw [if_pos ht, modelCreate_invalid hinvalid]
  exact ⟨rfl, hstore⟩

theorem insert_invalid_rejected_witness :
    (insertHandler okAll ("db" : String) ("c" : String)
        ⟨some (.obj [(("item" : String), .pStr ("apple" : String)),
          (("quantity" : String), .pNum 3)]), none⟩ stEmpty).1 =
        .serverError ("grocery validation failed" : String) ∧
      ((insertHandler okAll ("db" : String) ("c" : String)
        ⟨some (.obj [(("item" : String), .pStr ("apple" : String)),
          (("quantity" : String), .pNum 3)]), none⟩ stEmpty).2).store =
        stEmpty.store :=
  insert_invalid_rejected okAll ("db" : String) ("c" : String)
    [(("item" : String), .pStr ("apple" : String)),
      (("quantity" : String), .pNum 3)] stEmpty (by decide) (by decide)

/-- C7 counterexample: a body that DOES contain a `document` field, with the
falsy value `false`, is answered 400 — the handler tests truthiness, not
presence — although the claim requires a 201 whenever a document field is
present (and requires 400 only when neither field is present). -/
theorem insert_falsy_document_cex :
    (insertHandler okAll ("db" : String) ("c" : String)
        ⟨some (.prim (.pBool false)), none⟩ stEmpty).1 = .missingBody ∧
      (insertHandler okAll ("db" : String) ("c" : String)
        ⟨some (.prim (.pBool false)), none⟩ stEmpty).1.status = 400 := by
  decide

/-- C7 (amended): given the accessor is acquired successfully, the insert
endpoint answers 400 exactly when the body has neither a truthy `document`
value nor a `documents` array; a truthy `document` object that passes schema
validation is answered 201 with the generated id, and (with no `document`
field) a `documents` array whose members all pass validation is answered 201
with the list of generated ids.  Invalid documents lead to a 500 instead
(C5). -/
theorem insert_endpoint_responses
    (ok : String → Bool) (d c : String) (body : InsertBody) (doc : Doc)
    (ds : List Doc) (s : St) (hok : ok d = true) :
    ((insertHandler ok d c body s).1.status = 400 ↔
        optTruthy body.document = false ∧ optIsArray body.documents = false) ∧
      (body.document = some (.obj doc) → validateDoc doc = true →
        (insertHandler ok d c body s).1 =
          .inserted ((getModel ok d c s).2.nextId)) ∧
      (body.document = none → body.documents = some (.arr ds) →
        ds.all validateDoc = true →
        (insertHandler ok d c body s).1 =
          .insertedMany ((List.range ds.length).map
            (fun i => (getModel ok d c s).2.nextId + i))) := by
  obtain ⟨m, s₁, hg⟩ := getModel_ok_total c s hok
  refine ⟨?_, ?_, ?_⟩
  · unfold insertHandler
    rw [hg]
    cases hd : body.document with
    | none =>
      show ((insertTail m body s₁).1.status = 400 ↔ _)
      rw [insertTail_status_400]
      simp [optTruthy]
    | some v =>
      by_cases ht : truthy v = true
      · show ((if truthy v = true then
            match modelCreate m v s₁ with
            | (.ok i, s₂) => (Resp.inserted i, s₂)
            | (.error e, s₂) => (.serverError e.message, s₂)
          else insertTail m body s₁).1.status = 400 ↔ _)
        rw [if_pos ht]
        cases hcr : modelCreate m v s₁ with
        | mk rc sc =>
          cases rc with
          | ok i => simp [optTruthy, ht, Resp.status]
          | error e => simp [optTruthy, ht, Resp.status]
      · show ((if truthy v = true then
            match modelCreate m v s₁ with
            | (.ok i, s₂) => (Resp.inserted i, s₂)
            | (.error e, s₂) => (.serverError e.message, s₂)
          else insertTail m body s₁).1.status = 400 ↔ _)
        rw [if_neg ht]
        rw [insertTail_status_400]
        simp [optTruthy, Bool.eq_false_iff.mpr ht]
  · intro hbd hv
    unfold insertHandler
    rw [hg, hbd]
    show ((if truthy (.obj doc) = true then
        match modelCreate m (.obj doc) s₁ with
        | (.ok i, s₂) => (Resp.inserted i, s₂)
        | (.error e, s₂) => (.serverError e.message, s₂)
      else insertTail m body s₁).1 = .inserted s₁.nextId)
    have ht : truthy (JVal.obj doc) = true := rfl
    rw [if_pos ht, modelCreate_valid hv]
  · intro hbd hds hv
    unfold insertHandler
    rw [hg, hbd]
    show ((insertTail m body s₁).1 =
      .insertedMany ((List.range ds.length).map (fun i => s₁.nextId + i)))
    unfold insertTail
    simp only [hds]
    rw [modelInsertMany_valid hv]

/-- A schema-conforming grocery document. -/
def goodDoc : Doc :=
  [(("item" : String), .pStr ("apple" : String)),
   (("food_group" : String), .pStr ("fruits" : String)),
   (("price_in_usd" : String), .pNum 1),
   (("quantity" : String), .pNum 10)]

theorem insert_endpoint_responses_witness :
    ((insertHandler okAll ("db" : String) ("c" : String)
          ⟨none, some (.arr [goodDoc])⟩ stEmpty).1.status = 400 ↔
        optTruthy (none : Option JVal) = false ∧
          optIsArray (some (.arr [goodDoc])) = false) ∧
      ((none : Option JVal) = some (.obj goodDoc) →
        validateDoc goodDoc = true →
        (insertHandler okAll ("db" : String) ("c" : String)
            ⟨none, some (.arr [goodDoc])⟩ stEmpty).1 =
          .inserted ((getModel okAll ("db" : String) ("c" : String)
            stEmpty).2.nextId)) ∧
      ((none : Option JVal) = none →
        (some (.arr [goodDoc]) : Option JVal) = some (.arr [goodDoc]) →
        ([goodDoc] : List Doc).all validateDoc = true →
        (insertHandler okAll ("db" : String) ("c" : String)
            ⟨none, some (.arr [goodDoc])⟩ stEmpty).1 =
          .insertedMany ((List.range ([goodDoc] : List Doc).length).map
            (fun i => (getModel okAll ("db" : String) ("c" : String)
              stEmpty).2.nextId + i))) :=
  insert_endpoint_responses okAll ("db" : String) ("c" : String)
    ⟨none, some (.arr [goodDoc])⟩ goodDoc [goodDoc] stEmpty (by decide)

/-! ## Delete and update endpoints -/

theorem find_none_of_all_ne {l : List SDoc} {n : Nat}
    (h : l.all (fun e => e.docId != n) = true) :
    l.find? (fun e => e.docId == n) = none := by
  induction l with
  | nil => rfl
  | cons x xs ih =>
    simp only [List.all_cons, Bool.and_eq_true] at h
    rw [List.find?_cons_of_neg]
    · exact ih h.2
    · simpa using h.1

/-- C8 counterexample: a delete for a well-formed id that matches nothing is
answered 404, but the registries are NOT left unchanged: the first request
for the pair populates the connection (and model) caches. -/
theorem delete_notfound_registry_cex :
    (deleteHandler okAll ("db" : String) ("c" : String) ("5" : String)
        stEmpty).1.status = 404 ∧
      (deleteHandler okAll ("db" : String) ("c" : String) ("5" : String)
          stEmpty).2.connections ≠ stEmpty.connections := by
  decide

/-- C8 (amended): when the accessor for the pair is already cached, a DELETE
with a well-formed id matching no stored document is answered 404 and the
whole state — both registries and the stored data — is returned unchanged.
(On a first request for the pair the caches are populated, so only the stored
data is unchanged in general.) -/
theorem delete_notfound_frame
    (ok : String → Bool) (d c idStr : String) (n : Nat) (s : St) (m : MModel)
    (hcached : alookup (modelKey d c) s.models = some m)
    (hid : parseId idStr = some n)
    (hmiss : (getColl m s).all (fun e => e.docId != n) = true) :
    deleteHandler ok d c idStr s = (.deleteNotFound idStr, s) ∧
      (deleteHandler ok d c idStr s).1.status = 404 := by
  have hg : getModel ok d c s = (.ok m, s) := getModel_cached hcached
  have hdel : modelFindByIdAndDelete m idStr s = (.ok none, s) := by
    unfold modelFindByIdAndDelete
    simp only [hid, find_none_of_all_ne hmiss]
  have hhand : deleteHandler ok d c idStr s = (.deleteNotFound idStr, s) := by
    unfold deleteHandler
    rw [hg]
    show (match modelFindByIdAndDelete m idStr s with
      | (.error e, s₂) => (Resp.serverError e.message, s₂)
      | (.ok none, s₂) => (.deleteNotFound idStr, s₂)
      | (.ok (some _), s₂) => (.deleted idStr, s₂)) =
        (.deleteNotFound idStr, s)
    rw [hdel]
  exact ⟨hhand, by rw [hhand]; rfl⟩

theorem delete_notfound_frame_witness :
    deleteHandler okAll ("db" : String) ("coll" : String) ("5" : String)
        stDbColl = (.deleteNotFound ("5" : String), stDbColl) ∧
      (deleteHandler okAll ("db" : String) ("coll" : String) ("5" : String)
        stDbColl).1.status = 404 :=
  delete_notfound_frame okAll ("db" : String) ("coll" : String)
    ("5" : String) 5 stDbColl ⟨1, 0, ("db" : String), ("coll" : String)⟩
    (by decide) (by decide) (by decide)

theorem alookup_set_map {f g : String} (hne : f ≠ g) (v : Prim) :
    ∀ d : Doc,
      alookup f (d.map (fun fv => if fv.1 == g then (g, v) else fv)) =
        alookup f d := by
  intro d
  induction d with
  | nil => rfl
  | cons x xs ih =>
    obtain ⟨x₁, x₂⟩ := x
    by_cases hx : x₁ = g
    · subst hx
      rw [List.map_cons, if_pos (show (x₁ == x₁) = true by simp)]
      show (if f = x₁ then some v
          else alookup f
            (xs.map (fun fv => if fv.1 == x₁ then (x₁, v) else fv))) =
        if f = x₁ then some x₂ else alookup f xs
      rw [if_neg hne, if_neg hne]
      exact ih
    · rw [List.map_cons, if_neg (show ¬((x₁ == g) = true) by simp [hx])]
      show (if f = x₁ then some x₂
          else alookup f
            (xs.map (fun fv => if fv.1 == g then (g, v) else fv))) =
        if f = x₁ then some x₂ else alookup f xs
      by_cases hfx : f = x₁
      · rw [if_pos hfx, if_pos hfx]
      · rw [if_neg hfx, if_neg hfx]
        exact ih

theorem alookup_append_single {f g : String} (hne : f ≠ g) (v : Prim) :
    ∀ d : Doc, alookup f (d ++ [(g, v)]) = alookup f d := by
  intro d
  induction d with
  | nil => simp [alookup, hne]
  | cons x xs ih =>
    obtain ⟨x₁, x₂⟩ := x
    by_cases hx : f = x₁ <;> simp [alookup, hx, ih]

/-- `$set` of one field leaves every other field's value unchanged. -/
theorem setField_other {f g : String} (hne : f ≠ g) (v : Prim) (d : Doc) :
    alookup f (setField g v d) = alookup f d := by
  unfold setField
  split
  · exact alookup_set_map hne v d
  · exact alookup_append_single hne v d

theorem alookup_cons_split {f x₁ : String} {x₂ : Prim} {xs : Doc}
    (h : alookup f ((x₁, x₂) :: xs) = none) :
    f ≠ x₁ ∧ alookup f xs = none := by
  by_cases hx : f = x₁
  · rw [hx] at h
    unfold alookup at h
    rw [if_pos rfl] at h
    exact Option.noConfusion h
  · refine ⟨hx, ?_⟩
    unfold alookup at h
    rw [if_neg hx] at h
    exact h

theorem foldl_setField_frame {f : String} :
    ∀ (l : Doc) (d : Doc), alookup f l = none →
      alookup f (l.foldl (fun acc fv => setField fv.1 fv.2 acc) d) =
        alookup f d := by
  intro l
  induction l with
  | nil => intro d _; rfl
  | cons x xs ih =>
    intro d hl
    obtain ⟨x₁, x₂⟩ := x
    obtain ⟨hfx, hxs⟩ := alookup_cons_split hl
    show alookup f
        (xs.foldl (fun acc fv => setField fv.1 fv.2 acc) (setField x₁ x₂ d)) =
      alookup f d
    rw [ih (setField x₁ x₂ d) hxs, setField_other hfx]

theorem alookup_filter_none {f : String} (p : String × Prim → Bool) :
    ∀ {upd : Doc}, alookup f upd = none → alookup f (upd.filter p) = none := by
  intro upd
  induction upd with
  | nil => intro _; rfl
  | cons x xs ih =>
    intro h
    obtain ⟨x₁, x₂⟩ := x
    obtain ⟨hfx, hxs⟩ := alookup_cons_split h
    by_cases hp : p (x₁, x₂) = true <;>
      simp [List.filter, hp, alookup, hfx, ih hxs]

/-- The merge applied by the update endpoint never touches a field that is
not named in the `update` object. -/
theorem applySet_frame {f : String} {upd : Doc} (d : Doc)
    (h : alookup f upd = none) :
    alookup f (applySet upd d) = alookup f d := by
  unfold applySet
  exact foldl_setField_frame _ d
    (alookup_filter_none (fun fv => schemaFields.contains fv.1) h)

theorem modelFindByIdAndUpdate_found {m : MModel} {idStr : String} {n : Nat}
    {upd : Doc} {s : St} {doc : SDoc}
    (hid : parseId idStr = some n)
    (hvalid : upd.all (fun fv => fieldOk fv.1 fv.2) = true)
    (hfound : (getColl m s).find? (fun e => e.docId == n) = some doc) :
    modelFindByIdAndUpdate m idStr upd s =
      (.ok (some ⟨doc.docId, applySet upd doc.fields⟩),
        setColl m
          ((getColl m s).map
            (fun e => if e.docId == n then ⟨doc.docId, applySet upd doc.fields⟩
              else e)) s) := by
  unfold modelFindByIdAndUpdate
  simp only [hid]
  rw [if_pos hvalid]
  simp only [hfound]

/-- A schema-conforming stored document used as an existing record. -/
def docMilk : Doc :=
  [(("item" : String), .pStr ("milk" : String)),
   (("food_group" : String), .pStr ("dairy" : String)),
   (("price_in_usd" : String), .pNum 3),
   (("quantity" : String), .pNum 2)]

/-- A state whose pair ("db", "coll") is cached and whose collection holds
one document with id 5. -/
def stStore : St :=
  ⟨[(("db" : String), ⟨0, ("db" : String)⟩)],
    [(modelKey ("db" : String) ("coll" : String),
      ⟨1, 0, ("db" : String), ("coll" : String)⟩)],
    [(((0 : Nat), ("coll" : String)), [⟨5, docMilk⟩])], 6, [("db" : String)]⟩

/-- C9 counterexample: updating an existing document with an `update` object
that fails the schema's update validation (quantity −1 violates `min: 0`) is
answered 500, not 200 with the updated document — `runValidators: true` makes
the claim fail for such request bodies. -/
theorem update_invalid_value_cex :
    (updateHandler okAll ("db" : String) ("coll" : String) ("5" : String)
        (some [(("quantity" : String), .pNum (-1))]) stStore).1.status = 500 ∧
      (updateHandler okAll ("db" : String) ("coll" : String) ("5" : String)
        (some [(("quantity" : String), .pNum (-1))]) stStore).1.status ≠
        200 := by
  decide

/-- C9 (amended): for a cached accessor, a well-formed id matching a stored
document, and an `update` object whose fields pass the schema's update
validation, the PUT endpoint answers 200 with the updated document, which is
the stored document with exactly the `update` fields merged in: any field not
named in `update` keeps its prior value. -/
theorem update_merge_frame
    (ok : String → Bool) (d c idStr f : String) (n : Nat) (s : St)
    (m : MModel) (upd : Doc) (doc : SDoc)
    (hcached : alookup (modelKey d c) s.models = some m)
    (hid : parseId idStr = some n)
    (hvalid : upd.all (fun fv => fieldOk fv.1 fv.2) = true)
    (hfound : (getColl m s).find? (fun e => e.docId == n) = some doc) :
    (updateHandler ok d c idStr (some upd) s).1 =
        .updated ⟨doc.docId, applySet upd doc.fields⟩ ∧
      (updateHandler ok d c idStr (some upd) s).1.status = 200 ∧
      (alookup f upd = none →
        alookup f (applySet upd doc.fields) = alookup f doc.fields) := by
  have hg : getModel ok d c s = (.ok m, s) := getModel_cached hcached
  have hup := @modelFindByIdAndUpdate_found m idStr n upd s doc hid hvalid
    hfound
  have hhand : (updateHandler ok d c idStr (some upd) s).1 =
      .updated ⟨doc.docId, applySet upd doc.fields⟩ := by
    unfold updateHandler
    rw [hg]
    show ((match modelFindByIdAndUpdate m idStr upd s with
      | (.error e, s₂) => (Resp.serverError e.message, s₂)
      | (.ok none, s₂) => (Resp.updateNotFound, s₂)
      | (.ok (some d₀), s₂) => (.updated d₀, s₂)).1) =
        .updated ⟨doc.docId, applySet upd doc.fields⟩
    rw [hup]
  exact ⟨hhand, by rw [hhand]; rfl, fun hf => applySet_frame doc.fields hf⟩

theorem update_merge_frame_witness :
    (updateHandler okAll ("db" : String) ("coll" : String) ("5" : String)
          (some [(("price_in_usd" : String), .pNum 4)]) stStore).1 =
        .updated ⟨5, applySet [(("price_in_usd" : String), .pNum 4)] docMilk⟩ ∧
      (updateHandler okAll ("db" : String) ("coll" : String) ("5" : String)
          (some [(("price_in_usd" : String), .pNum 4)])
          stStore).1.status = 200 ∧
      (alookup ("item" : String)
            ([(("price_in_usd" : String), .pNum 4)] : Doc) = none →
        alookup ("item" : String)
            (applySet [(("price_in_usd" : String), .pNum 4)] docMilk) =
          alookup ("item" : String) docMilk) :=
  update_merge_frame okAll ("db" : String) ("coll" : String) ("5" : String)
    ("item" : String) 5 stStore ⟨1, 0, ("db" : String), ("coll" : String)⟩
    [(("price_in_usd" : String), .pNum 4)] ⟨5, docMilk⟩ (by decide)
    (by decide) (by decide) (by decide)

/-- C10: on both DELETE and PUT, a malformed :id fails the ObjectId cast; the
thrown cast error is caught by the generic catch block and answered 500 with
the cast-error message — not 400 and not 404 — provided the accessor is
acquired (here: cached). -/
theorem malformed_id_500
    (ok : String → Bool) (d c idStr : String) (upd : Option Doc) (s : St)
    (m : MModel) (hcached : alookup (modelKey d c) s.models = some m)
    (hbad : parseId idStr = none) :
    deleteHandler ok d c idStr s =
        (.serverError (Err.castFail idStr).message, s) ∧
      updateHandler ok d c idStr upd s =
        (.serverError (Err.castFail idStr).message, s) ∧
      (Resp.serverError (Err.castFail idStr).message).status = 500 := by
  have hg : getModel ok d c s = (.ok m, s) := getModel_cached hcached
  have hdel : modelFindByIdAndDelete m idStr s =
      (.error (.castFail idStr), s) := by
    unfold modelFindByIdAndDelete
    simp only [hbad]
  have hup : modelFindByIdAndUpdate m idStr (upd.getD []) s =
      (.error (.castFail idStr), s) := by
    unfold modelFindByIdAndUpdate
    simp only [hbad]
  refine ⟨?_, ?_, rfl⟩
  · unfold deleteHandler
    rw [hg]
    show (match modelFindByIdAndDelete m idStr s with
      | (.error e, s₂) => (Resp.serverError e.message, s₂)
      | (.ok none, s₂) => (.deleteNotFound idStr, s₂)
      | (.ok (some _), s₂) => (.deleted idStr, s₂)) =
        (.serverError (Err.castFail idStr).message, s)
    rw [hdel]
  · unfold updateHandler
    rw [hg]
    show (match modelFindByIdAndUpdate m idStr (upd.getD []) s with
      | (.error e, s₂) => (Resp.serverError e.message, s₂)
      | (.ok none, s₂) => (Resp.updateNotFound, s₂)
      | (.ok (some d₀), s₂) => (.updated d₀, s₂)) =
        (.serverError (Err.castFail idStr).message, s)
    rw [hup]

theorem malformed_id_500_witness :
    deleteHandler okAll ("db" : String) ("coll" : String) ("xyz" : String)
        stDbColl =
        (.serverError (Err.castFail ("xyz" : String)).message, stDbColl) ∧
      updateHandler okAll ("db" : String) ("coll" : String) ("xyz" : String)
        none stDbColl =
        (.serverError (Err.castFail ("xyz" : String)).message, stDbColl) ∧
      (Resp.serverError (Err.castFail ("xyz" : String)).message).status =
        500 :=
  malformed_id_500 okAll ("db" : String) ("coll" : String) ("xyz" : String)
    none stDbColl ⟨1, 0, ("db" : String), ("coll" : String)⟩ (by decide)
    (by decide)

end ExpressMongoose
